import Mathlib

/-!
Verification of the output-stream routing and sink subsystem of circus.

Shallow embedding of:
  * `FileStream` (circus/plugins/loggers.py): a rotating file sink based on
    Python's `logging.handlers.RotatingFileHandler`;
  * `FancyStdoutStream` (circus/stream/__init__.py and circus/plugins/loggers.py):
    a colorizing, timestamp-prefixing terminal sink;
  * `OutputStream` (circus/plugins/log_watchers.py): a topic-filtered republish
    sink that writes decoded messages to stdout;
  * `QueueStream` (circus/stream/__init__.py): a bare FIFO queue used as a sink.

File contents are modelled as `String` (Python 2 `str` is a byte string; we treat
characters as bytes).  The filesystem relevant to one `FileStream` instance is its
base file plus the numbered backups `<base>.1 .. <base>.i`, modelled as the base
content and a list `baks` with `baks[i]` = content of `<base>.(i+1)`.
Ghost fields (`rotations`, `appended`, `history`) record observable history and are
never read by the operational code.
-/

namespace Circus

/-- Configuration of a `FileStream` plugin: `filename` is implicit (one sink, one
base path); `max_bytes` and `backup_count` come from `int(config.get(..., 0))` and
`topic` from `config.get('topic', [])` (a string when configured). -/
structure FileStreamConfig where
  topic : String
  max_bytes : Int
  backup_count : Int
  deriving Repr, DecidableEq

/-- State of a `FileStream` instance together with the on-disk files it owns.
`base` is the content of the base file, `baks.get? i` the content of `<base>.(i+1)`
(`none` entries do not occur: a backup either exists or is past the end of the
list).  `fileOpen` models `self._file is not None`.  `rotations`, `appended` and
`history` are ghost observers: the number of `_do_rollover` calls, the
concatenation of every record ever written, and the base-file contents rotated
out, most recent first. -/
structure FileStreamState where
  base : String
  baks : List String
  fileOpen : Bool
  rotations : Nat
  appended : String
  history : List String
  deriving Repr, DecidableEq

/-- State after `handle_init` on a fresh sink over a fresh (empty, absent) base file:
`self._file = self._open()` opens `a+`, creating an empty file. -/
def initState : FileStreamState :=
  { base := "", baks := [], fileOpen := true,
    rotations := 0, appended := "", history := [] }

namespace FileStream

/-- Embeds `FileStream._should_rollover(raw_data)`: if the handle is closed, open it
first (`a+` neither truncates nor changes content); then, when `max_bytes > 0`,
seek to the end and report whether `tell() + len(raw_data) >= max_bytes`.
Returns the decision together with the (possibly opened) state. -/
def should_rollover (cfg : FileStreamConfig) (raw_data : String)
    (st : FileStreamState) : Bool × FileStreamState :=
  let st := if st.fileOpen then st else { st with fileOpen := true }
  if 0 < cfg.max_bytes then
    (decide ((st.base.length : Int) + raw_data.length ≥ cfg.max_bytes), st)
  else
    (false, st)

/-- Embeds `FileStream._do_rollover()`: close the handle; when `backup_count > 0`,
rename `<base>.i` to `<base>.(i+1)` for `i = backup_count-1` down to `1`
(removing a pre-existing destination first), rename the base file to `<base>.1`,
and reopen a fresh base file.  On the list model the renames amount to
`baks := (base :: baks).take backup_count`.  When `backup_count <= 0` the handle
is simply reopened with `open(filename, 'a+')`, which neither truncates nor
moves anything, so the base content is unchanged. -/
def do_rollover (cfg : FileStreamConfig) (st : FileStreamState) : FileStreamState :=
  if 0 < cfg.backup_count then
    { base := "", baks := (st.base :: st.baks).take cfg.backup_count.toNat,
      fileOpen := true, rotations := st.rotations + 1,
      appended := st.appended, history := st.base :: st.history }
  else
    { st with
      fileOpen := true
      rotations := st.rotations + 1
      history := st.base :: st.history }

/-- Embeds `FileStream.handle_recv(data)`: unpack `(topic, message)`; on a topic match,
format the record as `'%s: %s' % (topic, json.loads(message))` — `json.loads` is
the transport decoding, passed in as `decode` — consult `_should_rollover`,
roll over if told to, then write the record and flush. -/
def handle_recv (cfg : FileStreamConfig) (decode : String → String)
    (st : FileStreamState) (data : String × String) : FileStreamState :=
  let (topic, message) := data
  if topic = cfg.topic then
    let msg := cfg.topic ++ ": " ++ decode message
    let (roll, st) := should_rollover cfg msg st
    let st := if roll then do_rollover cfg st else st
    { st with
      base := st.base ++ msg
      appended := st.appended ++ msg }
  else
    st

/-- Run a sink over a sequence of received `(topic, message)` events. -/
def run (cfg : FileStreamConfig) (decode : String → String)
    (st : FileStreamState) (events : List (String × String)) : FileStreamState :=
  events.foldl (handle_recv cfg decode) st

/-- Concatenation of a list of file contents, first file first. -/
def concatAll (l : List String) : String := l.foldr (· ++ ·) ""

end FileStream

namespace FileStream

lemma concatAll_nil : concatAll [] = "" := rfl

lemma concatAll_cons (a : String) (l : List String) :
    concatAll (a :: l) = a ++ concatAll l := rfl

lemma concatAll_append (l₁ l₂ : List String) :
    concatAll (l₁ ++ l₂) = concatAll l₁ ++ concatAll l₂ := by
  induction l₁ with
  | nil => simp [concatAll_nil, concatAll_cons, String.empty_append]
  | cons a l ih => simp [concatAll_cons, ih, String.append_assoc]

lemma should_rollover_snd (cfg : FileStreamConfig) (msg : String) (st : FileStreamState) :
    (should_rollover cfg msg st).2 = { st with fileOpen := true } := by
  unfold should_rollover
  by_cases h : st.fileOpen <;> cases st <;> simp_all <;> split <;> rfl

lemma should_rollover_fst (cfg : FileStreamConfig) (msg : String) (st : FileStreamState) :
    (should_rollover cfg msg st).1 =
      decide (0 < cfg.max_bytes ∧ cfg.max_bytes ≤ (st.base.length : Int) + msg.length) := by
  unfold should_rollover
  by_cases h : st.fileOpen <;> simp only [h, if_true, if_false, Bool.false_eq_true] <;>
    split <;> rename_i hc <;> simp [hc]

lemma should_rollover_eq (cfg : FileStreamConfig) (msg : String) (st : FileStreamState) :
    should_rollover cfg msg st =
      (decide (0 < cfg.max_bytes ∧ cfg.max_bytes ≤ (st.base.length : Int) + msg.length),
       { st with fileOpen := true }) := by
  rw [← should_rollover_fst, ← should_rollover_snd]

/-- Closed form of `handle_recv` on a matching topic. -/
lemma handle_recv_match (cfg : FileStreamConfig) (decode : String → String)
    (st : FileStreamState) (m : String) :
    handle_recv cfg decode st (cfg.topic, m) =
      (let msg := cfg.topic ++ ": " ++ decode m
       let st1 := if 0 < cfg.max_bytes ∧ cfg.max_bytes ≤ (st.base.length : Int) + msg.length
                  then do_rollover cfg { st with fileOpen := true }
                  else { st with fileOpen := true }
       { st1 with base := st1.base ++ msg, appended := st1.appended ++ msg }) := by
  unfold handle_recv
  simp only [should_rollover_eq]
  by_cases hc : 0 < cfg.max_bytes ∧
      cfg.max_bytes ≤ (st.base.length : Int) + ((cfg.topic ++ ": " ++ decode m).length : Int) <;>
    simp [hc]

lemma handle_recv_nomatch (cfg : FileStreamConfig) (decode : String → String)
    (st : FileStreamState) (t m : String) (h : t ≠ cfg.topic) :
    handle_recv cfg decode st (t, m) = st := by
  unfold handle_recv
  simp [h]

/-- The history/backup/appended invariant maintained by a `FileStream` run started
on a fresh file, for `backup_count >= 1`: the ghost `history` counts the rollovers,
the on-disk backups are exactly the `backup_count` most recent rotated-out base
contents, and every byte ever written is accounted for by the rotated-out contents
(oldest first) followed by the current base file. -/
def Inv (cfg : FileStreamConfig) (st : FileStreamState) : Prop :=
  st.history.length = st.rotations ∧
  st.baks = st.history.take cfg.backup_count.toNat ∧
  st.appended = concatAll st.history.reverse ++ st.base

lemma inv_initState (cfg : FileStreamConfig) : Inv cfg initState := by
  refine ⟨rfl, by simp [initState], rfl⟩

lemma handle_recv_inv (cfg : FileStreamConfig) (hbc : 1 ≤ cfg.backup_count)
    (decode : String → String) (st : FileStreamState) (ev : String × String)
    (h : Inv cfg st) : Inv cfg (handle_recv cfg decode st ev) := by
  obtain ⟨t, m⟩ := ev
  by_cases ht : t = cfg.topic
  · subst ht
    rw [handle_recv_match]
    obtain ⟨h1, h2, h3⟩ := h
    obtain ⟨k, hk⟩ : ∃ k, cfg.backup_count.toNat = k + 1 := by
      refine ⟨cfg.backup_count.toNat - 1, ?_⟩
      omega
    by_cases hc : 0 < cfg.max_bytes ∧
        cfg.max_bytes ≤ (st.base.length : Int) +
          ((cfg.topic ++ ": " ++ decode m).length : Int)
    · have hbc' : 0 < cfg.backup_count := by omega
      refine ⟨?_, ?_, ?_⟩ <;>
        simp only [hc, if_true, do_rollover, if_pos hbc']
      · simpa using h1
      · rw [h2, hk]
        simp [List.take_take]
      · rw [h3]
        simp [concatAll_append, concatAll_cons, concatAll_nil,
          String.append_assoc, String.empty_append, String.append_empty]
    · refine ⟨?_, ?_, ?_⟩ <;> simp only [hc, if_false]
      · simpa using h1
      · simpa using h2
      · rw [h3]
        simp [String.append_assoc]
  · rw [handle_recv_nomatch cfg decode st t m ht]
    exact h

lemma run_inv (cfg : FileStreamConfig) (hbc : 1 ≤ cfg.backup_count)
    (decode : String → String) (evs : List (String × String)) (st : FileStreamState)
    (h : Inv cfg st) : Inv cfg (run cfg decode st evs) := by
  induction evs generalizing st with
  | nil => exact h
  | cons ev evs ih => exact ih _ (handle_recv_inv cfg hbc decode st ev h)

end FileStream

/-- C1: for the rotating file sink with `max_bytes = M`, `handle_recv` on a
matching record rotates iff `M > 0` and the on-disk size of the base file plus
the record's byte length is at least `M` (the size used is the real on-disk size
whether or not a handle was open, and the handle ends up open); when no rotation
is triggered — in particular whenever `M = 0` — the record is appended with no
rotation; and when a rotation is triggered it happens before the offending
write: the rotated-out content is the old base content without the record, and
the record is appended after the rotation. -/
theorem fileStream_rotation_threshold (cfg : FileStreamConfig)
    (decode : String → String) (st : FileStreamState) (t m : String)
    (hmatch : t = cfg.topic)
    (msg : String) (hmsg : msg = cfg.topic ++ ": " ++ decode m)
    (st' : FileStreamState)
    (hst : st' = FileStream.handle_recv cfg decode st (t, m)) :
    ((st'.rotations = st.rotations + 1) ↔
      (0 < cfg.max_bytes ∧ cfg.max_bytes ≤ (st.base.length : Int) + msg.length)) ∧
    (¬(0 < cfg.max_bytes ∧ cfg.max_bytes ≤ (st.base.length : Int) + msg.length) →
      st'.rotations = st.rotations ∧ st'.base = st.base ++ msg) ∧
    (st'.rotations = st.rotations + 1 →
      st'.history = st.base :: st.history ∧ ∃ p, st'.base = p ++ msg) ∧
    st'.fileOpen = true := by
  subst hmatch hst
  rw [FileStream.handle_recv_match]
  simp only [← hmsg]
  by_cases hc : 0 < cfg.max_bytes ∧
      cfg.max_bytes ≤ (st.base.length : Int) + (msg.length : Int) <;>
    by_cases hbc : 0 < cfg.backup_count <;>
    simp [hc, hbc, FileStream.do_rollover]
  · exact ⟨"", rfl⟩
  · exact ⟨st.base, rfl⟩

/-- Witness for C1 at a concrete input: `max_bytes = 5`, a fresh empty file and
the 5-byte record `"t: aa"` trigger a rotation. -/
theorem fileStream_rotation_threshold_witness :
    (FileStream.handle_recv ⟨"t", 5, 1⟩ id initState ("t", "aa")).rotations =
      initState.rotations + 1 :=
  (fileStream_rotation_threshold ⟨"t", 5, 1⟩ id initState "t" "aa" rfl
    "t: aa" rfl _ rfl).1.mpr (by decide)

/-- C2 fails as stated: with `backup_count = 1` and `max_bytes = 6`, appending
the three records `"t: aa"`, `"t: bb"`, `"t: cc"` rotates twice, the second
rotation deletes the backup holding `"t: aa"`, and the surviving files no
longer concatenate to everything ever appended. -/
theorem fileStream_data_loss_counterexample :
    (1 : Int) ≤ (⟨"t", 6, 1⟩ : FileStreamConfig).backup_count ∧
    (FileStream.run ⟨"t", 6, 1⟩ id initState
        [("t", "aa"), ("t", "bb"), ("t", "cc")]).appended ≠
      FileStream.concatAll
          (FileStream.run ⟨"t", 6, 1⟩ id initState
            [("t", "aa"), ("t", "bb"), ("t", "cc")]).baks.reverse ++
        (FileStream.run ⟨"t", 6, 1⟩ id initState
          [("t", "aa"), ("t", "bb"), ("t", "cc")]).base := by
  refine ⟨by decide, by decide⟩

/-- C2, amended: for `backup_count >= 1`, as long as no more rotations
have happened than there are backup slots (so no backup file has yet been
deleted off the end of the chain), the concatenation of all records ever
appended equals the concatenation, oldest first, of the existing `<base>.i`
files followed by the base file. -/
theorem fileStream_no_data_loss_amended (cfg : FileStreamConfig)
    (decode : String → String) (evs : List (String × String))
    (hbc : 1 ≤ cfg.backup_count)
    (hrot : ((FileStream.run cfg decode initState evs).rotations : Int) ≤
      cfg.backup_count) :
    (FileStream.run cfg decode initState evs).appended =
      FileStream.concatAll (FileStream.run cfg decode initState evs).baks.reverse ++
        (FileStream.run cfg decode initState evs).base := by
  obtain ⟨h1, h2, h3⟩ :=
    FileStream.run_inv cfg hbc decode evs initState (FileStream.inv_initState cfg)
  rw [h2, h3]
  have hlen : (FileStream.run cfg decode initState evs).history.length ≤
      cfg.backup_count.toNat := by
    omega
  rw [List.take_of_length_le hlen]

/-- Witness for C2 (amended) at a concrete input: `backup_count = 2` absorbs
both rotations of the three-record sequence, and the reconstruction holds. -/
theorem fileStream_no_data_loss_witness :
    (FileStream.run ⟨"t", 6, 2⟩ id initState
        [("t", "aa"), ("t", "bb"), ("t", "cc")]).appended =
      FileStream.concatAll
          (FileStream.run ⟨"t", 6, 2⟩ id initState
            [("t", "aa"), ("t", "bb"), ("t", "cc")]).baks.reverse ++
        (FileStream.run ⟨"t", 6, 2⟩ id initState
          [("t", "aa"), ("t", "bb"), ("t", "cc")]).base :=
  fileStream_no_data_loss_amended ⟨"t", 6, 2⟩ id
    [("t", "aa"), ("t", "bb"), ("t", "cc")] (by decide) (by decide)

/-- C3: for `backup_count = N >= 1`, after any event sequence on a fresh file,
at most `N` numbered backups exist (so at most `N+1` files in total including
the base file), backup `<base>.(i+1)` holds the `(i+1)`-th most recently
rotated-out content (so `<base>.1` is the most recent, and the highest existing
suffix — `<base>.N` once `N` rotations have happened — is the oldest retained). -/
theorem fileStream_backup_chain_bound (cfg : FileStreamConfig)
    (decode : String → String) (evs : List (String × String))
    (hbc : 1 ≤ cfg.backup_count) :
    (FileStream.run cfg decode initState evs).baks.length ≤ cfg.backup_count.toNat ∧
    (FileStream.run cfg decode initState evs).baks =
      (FileStream.run cfg decode initState evs).history.take cfg.backup_count.toNat ∧
    ((FileStream.run cfg decode initState evs).history ≠ [] →
      (FileStream.run cfg decode initState evs).baks.head? =
        (FileStream.run cfg decode initState evs).history.head?) := by
  obtain ⟨h1, h2, h3⟩ :=
    FileStream.run_inv cfg hbc decode evs initState (FileStream.inv_initState cfg)
  refine ⟨?_, h2, ?_⟩
  · rw [h2]
    exact le_trans (List.length_take_le _ _) (le_refl _)
  · intro hne
    rw [h2]
    obtain ⟨k, hk⟩ : ∃ k, cfg.backup_count.toNat = k + 1 := ⟨cfg.backup_count.toNat - 1, by omega⟩
    cases hh : (FileStream.run cfg decode initState evs).history with
    | nil => exact absurd hh hne
    | cons a l => rw [hk]; simp

/-- Witness for C3 at a concrete input: after two rotations with
`backup_count = 2`, the two backups are exactly the two rotated-out contents,
most recent first. -/
theorem fileStream_backup_chain_bound_witness :
    (FileStream.run ⟨"t", 6, 2⟩ id initState
        [("t", "aa"), ("t", "bb"), ("t", "cc")]).baks =
      (FileStream.run ⟨"t", 6, 2⟩ id initState
        [("t", "aa"), ("t", "bb"), ("t", "cc")]).history.take
          ((⟨"t", 6, 2⟩ : FileStreamConfig).backup_count.toNat) :=
  (fileStream_backup_chain_bound ⟨"t", 6, 2⟩ id
    [("t", "aa"), ("t", "bb"), ("t", "cc")] (by decide)).2.1

/-- C4: the code does not truncate on rotation when `backup_count = 0`.
With `max_bytes = 6`, `backup_count = 0` and records `"t: aa"`, `"t: bb"`,
the second record triggers a rollover (`rotations = 1`), no backup is created,
but `_do_rollover` reopens the base file with `open(filename, 'a+')`, which
appends instead of truncating: the base file still holds `"t: aa"` and ends up
as `"t: aat: bb"`, contradicting the documented RotatingFileHandler rollover
behaviour (Python 2's `doRollover` sets `self.mode = 'w'` before reopening). -/
theorem fileStream_rollover_no_truncate :
    (FileStream.run ⟨"t", 6, 0⟩ id initState [("t", "aa"), ("t", "bb")]).rotations = 1 ∧
    (FileStream.run ⟨"t", 6, 0⟩ id initState [("t", "aa"), ("t", "bb")]).baks = [] ∧
    (FileStream.run ⟨"t", 6, 0⟩ id initState [("t", "aa"), ("t", "bb")]).base =
      "t: aat: bb" := by
  refine ⟨by decide, by decide, by decide⟩

/-! ## FancyStdoutStream

Embedding of `FancyStdoutStream` (circus/stream/__init__.py; the copy in
circus/plugins/loggers.py differs only in that its line header also carries the
topic, which none of the verified properties depend on).  The class-level time
source `now = datetime.now` is the injectable clock (the tests replace it);
we model it as `now : Nat → Nat` mapping the index of the consultation to an
abstract instant, with the ghost field `ticks` counting consultations, and
`strftime fmt instant` standing for `instant.strftime(fmt)`.  Output is the
list of rendered lines (each line is written as prefix, body and color-reset
with trailing newline, then flushed). -/

/-- The fixed ordered 7-element color set, in ANSI escape-sequence order. -/
def fancyColors : List String :=
  ["red", "green", "yellow", "blue", "magenta", "cyan", "white"]

/-- A constructed `FancyStdoutStream`: the per-instance attributes set by
`__init__` plus the observable output state. -/
structure FancyStdoutStream where
  time_format : String
  color_code : Nat
  ticks : Nat
  out : List String
  deriving Repr, DecidableEq

/-- Python's `str.split('\n')` on the character list: every separator bounds a
segment, so a leading/trailing/double newline yields empty segments. -/
def pySplitNl : List Char → List (List Char)
  | [] => [[]]
  | c :: rest =>
    let r := pySplitNl rest
    if c = '\n' then [] :: r
    else
      match r with
      | [] => [[c]]
      | seg :: segs => (c :: seg) :: segs

/-- Python `data.split('\n')` for a byte string. -/
def pySplitLines (s : String) : List String := (pySplitNl s.data).map String.mk

namespace FancyStdoutStream

/-- Embeds `FancyStdoutStream.__init__(color, time_format)`: the timestamp pattern is
`time_format or '%Y-%M-%d %H:%M:%S'` (Python `or`: an empty string also falls
back to the default), and any color not in the fixed set — including an absent
one — is replaced by `random.choice(self.colors)`, modelled by the draw `pick`
reduced modulo the set size; `color_code` is the chosen color's index plus 1. -/
def init (color : Option String) (time_format : Option String) (pick : Nat) :
    FancyStdoutStream :=
  let tf := match time_format with
    | none => "%Y-%M-%d %H:%M:%S"
    | some s => if s = "" then "%Y-%M-%d %H:%M:%S" else s
  let c := match color with
    | some c => if c ∈ fancyColors then c else fancyColors.getD (pick % fancyColors.length) ""
    | none => fancyColors.getD (pick % fancyColors.length) ""
  { time_format := tf, color_code := fancyColors.indexOf c + 1, ticks := 0, out := [] }

/-- The line header built by `FancyStdoutStream.prefix(pid)` from an already
formatted timestamp: the ANSI color-start escape for this sink's `color_code`
followed by `'{time} [{pid}] | '`. -/
def header (f : FancyStdoutStream) (time : String) (pid : Int) : String :=
  "\x1b[0;3" ++ toString f.color_code ++ ";40m" ++ time ++ " [" ++ toString pid ++ "] | "

/-- The body of the loop in `FancyStdoutStream.__call__`: for a non-empty
`line`, call `prefix(pid)` — which consults `self.now()` once and renders it
with `self.time_format` — then write the header, the line and the
color-reset-plus-newline, and flush; an empty line is skipped. -/
def callStep (now : Nat → Nat) (strftime : String → Nat → String) (pid : Int)
    (f : FancyStdoutStream) (line : String) : FancyStdoutStream :=
  if line ≠ "" then
    { f with
      ticks := f.ticks + 1
      out := f.out ++ [header f (strftime f.time_format (now f.ticks)) pid ++
        line ++ "\x1b[0m\n"] }
  else f

/-- Embeds `FancyStdoutStream.__call__(data)`: split the payload on `'\n'` and run the
per-line loop body over the segments. -/
def call (now : Nat → Nat) (strftime : String → Nat → String)
    (f : FancyStdoutStream) (data : String × Int) : FancyStdoutStream :=
  let (payload, pid) := data
  (pySplitLines payload).foldl (callStep now strftime pid) f

lemma foldl_callStep (now : Nat → Nat) (strftime : String → Nat → String) (pid : Int)
    (lines : List String) : ∀ f : FancyStdoutStream,
    ((lines.foldl (callStep now strftime pid) f).ticks =
        f.ticks + (lines.filter (· ≠ "")).length ∧
      (lines.foldl (callStep now strftime pid) f).out.length =
        f.out.length + (lines.filter (· ≠ "")).length ∧
      (lines.foldl (callStep now strftime pid) f).color_code = f.color_code ∧
      (lines.foldl (callStep now strftime pid) f).time_format = f.time_format) := by
  induction lines with
  | nil => intro f; simp
  | cons a l ih =>
    intro f
    by_cases h : a = ""
    · simpa [callStep, h] using ih f
    · have := ih (callStep now strftime pid f a)
      simp only [List.foldl_cons] at *
      refine ⟨?_, ?_, ?_, ?_⟩ <;> simp_all [callStep, h] <;> omega

lemma indexOf_fancy_lt (c : String) (h : c ∈ fancyColors) : fancyColors.indexOf c < 7 := by
  fin_cases h <;> decide

lemma getD_fancy_mem (k : Nat) : fancyColors.getD (k % fancyColors.length) "" ∈ fancyColors := by
  have hk : k % fancyColors.length < fancyColors.length :=
    Nat.mod_lt _ (by decide)
  rw [List.getD_eq_getElem _ _ hk]
  exact List.getElem_mem hk

end FancyStdoutStream

/-- C5 fails as stated: `__call__` invokes `prefix` — and hence `self.now()` —
once per rendered line, not once per event.  With the identity clock and a
timestamp formatter exposing the instant, rendering the two-line payload
`"a\nb"` in one call consults the time source twice (not once), and the two
rendered lines carry the different timestamps `0` and `1`. -/
theorem fancy_time_per_line_counterexample :
    (FancyStdoutStream.call id (fun _ n => toString n)
        (FancyStdoutStream.init (some "red") none 0) ("a\nb", 1)).ticks = 2 ∧
    (FancyStdoutStream.call id (fun _ n => toString n)
        (FancyStdoutStream.init (some "red") none 0) ("a\nb", 1)).out =
      ["\x1b[0;31;40m0 [1] | a\x1b[0m\n", "\x1b[0;31;40m1 [1] | b\x1b[0m\n"] := by
  refine ⟨by decide, by decide⟩

/-- C5, amended: the colorizing terminal sink captures the current time once
per rendered (non-empty) line of the incoming event, not once per event: one
`handle(event)` call consults the time source exactly as many times as the
payload has non-empty newline-separated segments, so lines of one event agree
on the timestamp only when the time source does not advance between them. -/
theorem fancy_time_once_per_line (now : Nat → Nat) (strftime : String → Nat → String)
    (f : FancyStdoutStream) (payload : String) (pid : Int) :
    (FancyStdoutStream.call now strftime f (payload, pid)).ticks =
      f.ticks + ((pySplitLines payload).filter (· ≠ "")).length :=
  (FancyStdoutStream.foldl_callStep now strftime pid (pySplitLines payload) f).1

/-- C6: rendering a payload produces exactly one output line per non-empty
newline-separated segment; in particular `"foo\nbar\nbaz"` and
`"foo\nbar\nbaz\n"` both render exactly 3 lines (the trailing empty segment of
the second split is dropped). -/
theorem fancy_line_splitting :
    (∀ (now : Nat → Nat) (strftime : String → Nat → String)
        (f : FancyStdoutStream) (payload : String) (pid : Int),
      (FancyStdoutStream.call now strftime f (payload, pid)).out.length =
        f.out.length + ((pySplitLines payload).filter (· ≠ "")).length) ∧
    (FancyStdoutStream.call id (fun _ n => toString n)
        (FancyStdoutStream.init (some "red") none 0) ("foo\nbar\nbaz", 1)).out.length = 3 ∧
    (FancyStdoutStream.call id (fun _ n => toString n)
        (FancyStdoutStream.init (some "red") none 0) ("foo\nbar\nbaz\n", 1)).out.length = 3 := by
  refine ⟨?_, by decide, by decide⟩
  intro now strftime f payload pid
  exact (FancyStdoutStream.foldl_callStep now strftime pid (pySplitLines payload) f).2.1

/-- C7: an explicitly configured color `X` from the fixed 7-element ordered
color set yields `color_code = index_of(X) + 1`; for every constructed sink
(explicit, absent or invalid color, any random draw) `color_code` lies in
`1..7`; and a render call never changes `color_code`, so it is identical for
every render within the sink's lifetime. -/
theorem fancy_color_stability :
    (∀ (c : String) (tf : Option String) (pick : Nat), c ∈ fancyColors →
      (FancyStdoutStream.init (some c) tf pick).color_code = fancyColors.indexOf c + 1) ∧
    (∀ (color : Option String) (tf : Option String) (pick : Nat),
      1 ≤ (FancyStdoutStream.init color tf pick).color_code ∧
        (FancyStdoutStream.init color tf pick).color_code ≤ 7) ∧
    (∀ (now : Nat → Nat) (strftime : String → Nat → String)
        (f : FancyStdoutStream) (data : String × Int),
      (FancyStdoutStream.call now strftime f data).color_code = f.color_code) := by
  refine ⟨?_, ?_, ?_⟩
  · intro c tf pick hc
    simp [FancyStdoutStream.init, hc]
  · intro color tf pick
    have hbound : ∀ c ∈ fancyColors, 1 ≤ fancyColors.indexOf c + 1 ∧
        fancyColors.indexOf c + 1 ≤ 7 := by
      intro c hc
      have := FancyStdoutStream.indexOf_fancy_lt c hc
      omega
    cases color with
    | none =>
      simpa [FancyStdoutStream.init] using
        hbound _ (FancyStdoutStream.getD_fancy_mem pick)
    | some c =>
      by_cases hc : c ∈ fancyColors
      · simpa [FancyStdoutStream.init, hc] using hbound c hc
      · simpa [FancyStdoutStream.init, hc] using
          hbound _ (FancyStdoutStream.getD_fancy_mem pick)
  · intro now strftime f data
    obtain ⟨payload, pid⟩ := data
    exact (FancyStdoutStream.foldl_callStep now strftime pid (pySplitLines payload) f).2.2.1

/-- Witness for C7 at a concrete input: explicit color `"yellow"` (index 2)
yields `color_code = 3`. -/
theorem fancy_color_stability_witness :
    (FancyStdoutStream.init (some "yellow") none 0).color_code =
      fancyColors.indexOf "yellow" + 1 :=
  fancy_color_stability.1 "yellow" none 0 (by decide)

/-- C8 fails as stated: with no `time_format` configured the pattern is the
code's literal `'%Y-%M-%d %H:%M:%S'` (minutes where the month belongs, exactly
as the class docstring also documents), not the claimed `'%Y-%m-%d %H:%M:%S'`. -/
theorem fancy_default_time_format_counterexample :
    (FancyStdoutStream.init none none 0).time_format ≠ "%Y-%m-%d %H:%M:%S" := by
  decide

/-- C8, amended: when no `time_format` option is configured, the timestamp
pattern defaults to `'%Y-%M-%d %H:%M:%S'` (with `%M`, as in the code and its
docstring). -/
theorem fancy_default_time_format (color : Option String) (pick : Nat) :
    (FancyStdoutStream.init color none pick).time_format = "%Y-%M-%d %H:%M:%S" := rfl

/-! ## OutputStream (circus/plugins/log_watchers.py) -/

/-- The `stream_observer` plugin: `topics` from `config.get('topics', [])` and
the text written to `sys.stdout` so far. -/
structure OutputStream where
  topics : List String
  out : String
  deriving Repr, DecidableEq

namespace OutputStream

/-- Embeds `OutputStream.handle_recv(data)`: unpack `(topic, message)`; if the topic is
a member of the configured topics, write `json.loads(message)` — the transport
decoding, passed in as `decode` — to stdout; otherwise do nothing. -/
def handle_recv (decode : String → String) (st : OutputStream)
    (data : String × String) : OutputStream :=
  let (topic, message) := data
  if topic ∈ st.topics then { st with out := st.out ++ decode message } else st

end OutputStream

/-- C9: for every received `(topic, message)` pair, the stream-observer
republish sink writes the decoded message to stdout iff the topic is a member
of the configured topic collection; on a non-member topic it produces no output
and changes no state at all. -/
theorem outputStream_topic_filter (decode : String → String) (st : OutputStream)
    (t m : String) :
    (t ∈ st.topics →
      OutputStream.handle_recv decode st (t, m) = { st with out := st.out ++ decode m }) ∧
    (t ∉ st.topics → OutputStream.handle_recv decode st (t, m) = st) := by
  constructor <;> intro h <;> simp [OutputStream.handle_recv, h]

/-- Witness for C9 at concrete inputs: a member topic appends the decoded
message to stdout; a non-member topic leaves the sink untouched. -/
theorem outputStream_topic_filter_witness :
    OutputStream.handle_recv id ⟨["test.stdout"], ""⟩ ("test.stdout", "hello") =
      ⟨["test.stdout"], "hello"⟩ ∧
    OutputStream.handle_recv id ⟨["test.stdout"], ""⟩ ("test.stderr", "hello") =
      ⟨["test.stdout"], ""⟩ :=
  ⟨(outputStream_topic_filter id ⟨["test.stdout"], ""⟩ "test.stdout" "hello").1
      (by decide),
   (outputStream_topic_filter id ⟨["test.stdout"], ""⟩ "test.stderr" "hello").2
      (by decide)⟩

/-! ## QueueStream (circus/stream/__init__.py) -/

/-- Embeds `QueueStream`: a bare FIFO queue used directly as a sink.  `__call__` is
`self.put(data)`; there is no consumer or wrapped sink inside the class. -/
structure QueueStream (α : Type) where
  items : List α
  deriving Repr, DecidableEq

namespace QueueStream

/-- A freshly constructed, empty queue (`Queue.__init__`). -/
def init (α : Type) : QueueStream α := ⟨[]⟩

/-- Embeds `QueueStream.__call__(data)`: `self.put(data)` enqueues at the tail. -/
def call (q : QueueStream α) (data : α) : QueueStream α := ⟨q.items ++ [data]⟩

/-- Embeds `QueueStream.close()`: the body is `pass`. -/
def close (q : QueueStream α) : QueueStream α := q

end QueueStream

/-- C10 fails as stated: `close()` is `pass`.  After pushing one chunk and
calling `close()`, the queue still holds the chunk — nothing was drained, no
wrapped sink exists to receive or close, and the queue is not empty. -/
theorem queueStream_close_counterexample :
    (QueueStream.close (QueueStream.call (QueueStream.init String) "chunk")).items ≠
      ([] : List String) := by
  decide

/-- C10, amended: `close()` on the queue-backed sink is a no-op — it drains
nothing, closes nothing, and leaves the queue exactly as it was (while
`__call__` keeps appending events in FIFO order at the tail). -/
theorem queueStream_close_noop (α : Type) (q : QueueStream α) :
    QueueStream.close q = q ∧ ∀ d, (QueueStream.call q d).items = q.items ++ [d] :=
  ⟨rfl, fun _ => rfl⟩

end Circus
